import Mathlib

/-!
Shallow embedding of the task-list logic of `src/components/TodoList.tsx`
(the `TodoList` React component): the `Todo` record, the `addTodo`,
`toggleTodo` and `deleteTodo` state transitions on the `todos` collection,
and the derived read `sortedAndFilteredTodos` (filter by completion state,
filter by search query, then sort by the selected key).

Modelling conventions:
* JavaScript strings are Lean `String`s; `String.prototype.trim`,
  `String.prototype.split(',')`, `toLowerCase` and `includes` are embedded
  as executable functions over `List Char` so that the kernel can evaluate
  them on concrete inputs.
* `Date.now()` is an explicit `now : Nat` argument to `addTodo`; the stored
  `id` is `toString now`, matching `Date.now().toString()`.
* A `Date` value is represented by its millisecond timestamp (`Int`), which
  is all the comparator `new Date(d).getTime()` observes.
* `Array.prototype.sort` (stable since ES2019) applied to comparator `cmp`
  is embedded as `List.insertionSort` — a stable sort — with the relation
  `fun a b => cmp a b ≤ 0`.
* The component state mutated by `setTodos` is the `List Todo`; operations
  that call `setTodos` return the new list, and `addTodo`, which can reject
  its input with an error toast, also returns an `Option String` carrying
  the error message (`none` on success).
-/

/-- The three values of the `priority` union type `'low' | 'medium' | 'high'`. -/
inductive Priority where
  | low
  | medium
  | high
deriving DecidableEq

/-- The `Todo` interface of `TodoList.tsx`. `dueDate`, `notes` and `tags` are
optional fields (`?:` in TypeScript); a `Date` is represented by its
millisecond timestamp. -/
structure Todo where
  id : String
  text : String
  completed : Bool
  priority : Priority
  category : String
  dueDate : Option Int
  notes : Option String
  tags : Option (List String)
deriving DecidableEq

/-- Leading- and trailing-whitespace removal on a character list; the
embedding of `String.prototype.trim` used by `addTodo`. -/
def trimChars (l : List Char) : List Char :=
  ((l.dropWhile Char.isWhitespace).reverse.dropWhile Char.isWhitespace).reverse

/-- The embedding of `String.prototype.trim`. -/
def strTrim (s : String) : String :=
  String.mk (trimChars s.data)

/-- Splitting a character list on `','`, keeping empty pieces; the embedding
of `String.prototype.split(',')` (so `"a,,b"` gives three pieces and `""`
gives one empty piece). -/
def splitOnComma : List Char → List (List Char)
  | [] => [[]]
  | c :: cs =>
    if c = ',' then [] :: splitOnComma cs
    else
      match splitOnComma cs with
      | [] => [[c]]
      | piece :: rest => (c :: piece) :: rest

/-- Tag parsing in `addTodo`:
`tags.split(',').map(tag => tag.trim()).filter(tag => tag !== '')`. -/
def parseTags (tags : String) : List String :=
  (((splitOnComma tags.data).map fun piece => String.mk (trimChars piece)).filter
    fun tag => tag != "")

/-- The `addTodo` handler, lines 37-68 of `TodoList.tsx`, as a function of the
form-field state (`newTodo`, `priority`, `category`, `dueDate`, `notes`,
`tags`), the clock reading `now = Date.now()` and the current collection.
It returns the collection after the call together with the error message of
the destructive toast, if any: when `newTodo.trim()` is falsy (empty) the
handler toasts "Todo text cannot be empty" and returns without touching
`todos`; otherwise it builds the new `Todo` and appends it
(`setTodos([...todos, todo])`). -/
def addTodo (now : Nat) (newTodo : String) (priority : Priority) (category : String)
    (dueDate : Option Int) (notes : String) (tags : String) (todos : List Todo) :
    List Todo × Option String :=
  if strTrim newTodo = "" then
    (todos, some "Todo text cannot be empty")
  else
    (todos ++ [{ id := toString now
                 text := newTodo
                 completed := false
                 priority := priority
                 category := category
                 dueDate := dueDate
                 notes := some notes
                 tags := some (parseTags tags) }], none)

/-- The `toggleTodo` handler:
`todos.map(todo => todo.id === id ? { ...todo, completed: !todo.completed } : todo)`. -/
def toggleTodo (id : String) (todos : List Todo) : List Todo :=
  todos.map fun todo =>
    if todo.id = id then { todo with completed := !todo.completed } else todo

/-- The `deleteTodo` handler: `todos.filter(todo => todo.id !== id)`. -/
def deleteTodo (id : String) (todos : List Todo) : List Todo :=
  todos.filter fun todo => todo.id != id

/-- The completion-state predicate of the first `filter` in
`sortedAndFilteredTodos`: `active` keeps `!todo.completed`, `completed` keeps
`todo.completed`, anything else (in particular `all`) keeps everything. -/
def passesFilter (filter : String) (todo : Todo) : Bool :=
  if filter = "active" then !todo.completed
  else if filter = "completed" then todo.completed
  else true

/-- Character-list prefix test, an auxiliary for the embedding of
`String.prototype.includes`. -/
def seqStarts : List Char → List Char → Bool
  | [], _ => true
  | _ :: _, [] => false
  | a :: as, b :: bs => a == b && seqStarts as bs

/-- Character-list contiguous-subsequence test: `seqIncl needle hay` is the
embedding of `hay.includes(needle)` on the underlying characters. -/
def seqIncl (needle : List Char) : List Char → Bool
  | [] => seqStarts needle []
  | b :: bs => seqStarts needle (b :: bs) || seqIncl needle bs

/-- The embedding of `String.prototype.toLowerCase`. -/
def strToLower (s : String) : String :=
  String.mk (s.data.map Char.toLower)

/-- The embedding of `s.includes(sub)` on strings. -/
def strIncludes (s sub : String) : Bool :=
  seqIncl sub.data s.data

/-- The search predicate of the second `filter` in `sortedAndFilteredTodos`:
`todo.text.toLowerCase().includes(searchQuery.toLowerCase()) ||
 todo.tags?.some(tag => tag.toLowerCase().includes(searchQuery.toLowerCase()))`
(with the optional chain on a missing `tags` giving a falsy result). -/
def matchesSearch (searchQuery : String) (todo : Todo) : Bool :=
  strIncludes (strToLower todo.text) (strToLower searchQuery) ||
    (match todo.tags with
     | some tags => tags.any fun tag => strIncludes (strToLower tag) (strToLower searchQuery)
     | none => false)

/-- The intermediate `filtered` list of `sortedAndFilteredTodos`: the
completion-state filter followed by the search filter. -/
def filteredTodos (todos : List Todo) (filter searchQuery : String) : List Todo :=
  (todos.filter (passesFilter filter)).filter fun todo => matchesSearch searchQuery todo

/-- The numeric rank `priorityOrder = { high: 0, medium: 1, low: 2 }`. -/
def priorityOrder : Priority → Int
  | .high => 0
  | .medium => 1
  | .low => 2

/-- The sort comparator of `sortedAndFilteredTodos`: for `sortBy === 'priority'`
the rank difference `priorityOrder[a.priority] - priorityOrder[b.priority]`;
for `sortBy === 'date'`, when both sides carry a `dueDate`, the timestamp
difference; in every remaining case `0`. -/
def sortCmp (sortBy : String) (a b : Todo) : Int :=
  if sortBy = "priority" then priorityOrder a.priority - priorityOrder b.priority
  else if sortBy = "date" then
    match a.dueDate, b.dueDate with
    | some ta, some tb => ta - tb
    | _, _ => 0
  else 0

/-- The order relation induced by the comparator: `a` may stay left of `b`
when the comparator does not require the swap, i.e. `sortCmp sortBy a b ≤ 0`. -/
def sortLe (sortBy : String) (a b : Todo) : Prop :=
  sortCmp sortBy a b ≤ 0

instance (sortBy : String) : DecidableRel (sortLe sortBy) := fun a b =>
  inferInstanceAs (Decidable (sortCmp sortBy a b ≤ 0))

/-- The derived read `sortedAndFilteredTodos` (a `useMemo` over `todos`,
`filter`, `searchQuery`, `sortBy`): the two filters followed by
`filtered.sort(cmp)`. The ES2019-stable `Array.prototype.sort` under
comparator `cmp` is embedded as the stable `List.insertionSort` with the
relation `sortLe`, i.e. `cmp a b ≤ 0`. -/
def sortedAndFilteredTodos (todos : List Todo) (filter searchQuery sortBy : String) :
    List Todo :=
  List.insertionSort (sortLe sortBy) (filteredTodos todos filter searchQuery)

/-- The comparator under sort key `priority` is the rank difference. -/
theorem sortCmp_priority (a b : Todo) :
    sortCmp "priority" a b = priorityOrder a.priority - priorityOrder b.priority := by
  rw [sortCmp, if_pos rfl]

/-- The comparator under sort key `date` is the timestamp difference when both
sides carry a `dueDate`. -/
theorem sortCmp_date_some (ta tb : Int) (a b : Todo)
    (ha : a.dueDate = some ta) (hb : b.dueDate = some tb) :
    sortCmp "date" a b = ta - tb := by
  rw [sortCmp, if_neg (by decide), if_pos rfl, ha, hb]

/-- The comparator under sort key `date` returns `0` when either side lacks a
`dueDate`. -/
theorem sortCmp_date_none (a b : Todo) (h : a.dueDate = none ∨ b.dueDate = none) :
    sortCmp "date" a b = 0 := by
  rw [sortCmp, if_neg (by decide), if_pos rfl]
  cases ha : a.dueDate with
  | none => cases b.dueDate <;> rfl
  | some ta =>
    cases hb : b.dueDate with
    | none => rfl
    | some tb =>
      rcases h with h | h
      · rw [h] at ha
        exact Option.noConfusion ha
      · rw [h] at hb
        exact Option.noConfusion hb

/-- Evaluating the `sortedAndFilteredTodos` memo together with the state it
leaves behind: the memo body only reads `todos` (the single `setTodos`-owned
state); it never calls `setTodos`, so the collection after the evaluation is
the collection before it. -/
def viewRun (todos : List Todo) (filter searchQuery sortBy : String) :
    List Todo × List Todo :=
  (sortedAndFilteredTodos todos filter searchQuery sortBy, todos)

/-!
Generic lemmas about `List.insertionSort`: sortedness when the relation is
total and transitive on the elements of the list (the global instances of
Mathlib's `sorted_insertionSort` are too strong for the date comparator,
which is only well behaved on lists whose tasks all carry a `dueDate`), and
stability expressed as preservation of the subsequence of any class of
mutually-`r`-related elements.
-/

theorem pairwise_orderedInsert_of {α : Type} (r : α → α → Prop) [DecidableRel r]
    (x : α) (l : List α) (hl : l.Pairwise r)
    (tot : ∀ b ∈ l, r x b ∨ r b x)
    (tr : ∀ b ∈ l, ∀ c ∈ l, r x b → r b c → r x c) :
    (l.orderedInsert r x).Pairwise r := by
  induction l with
  | nil => simp [List.orderedInsert]
  | cons y ys ih =>
    rw [List.pairwise_cons] at hl
    rw [List.orderedInsert]
    by_cases hxy : r x y
    · rw [if_pos hxy]
      refine List.Pairwise.cons ?_ (List.Pairwise.cons hl.1 hl.2)
      intro b hb
      rcases List.mem_cons.mp hb with hb | hb
      · exact hb ▸ hxy
      · exact tr y (List.mem_cons_self y ys) b (List.mem_cons_of_mem y hb) hxy (hl.1 b hb)
    · rw [if_neg hxy]
      refine List.Pairwise.cons ?_ ?_
      · intro b hb
        rcases (List.mem_orderedInsert r).mp hb with hb | hb
        · rcases tot y (List.mem_cons_self y ys) with h | h
          · exact absurd h hxy
          · exact hb ▸ h
        · exact hl.1 b hb
      · exact ih hl.2 (fun b hb => tot b (List.mem_cons_of_mem y hb))
          (fun b hb c hc => tr b (List.mem_cons_of_mem y hb) c (List.mem_cons_of_mem y hc))

theorem pairwise_insertionSort_of {α : Type} (r : α → α → Prop) [DecidableRel r]
    (l : List α)
    (tot : ∀ a ∈ l, ∀ b ∈ l, r a b ∨ r b a)
    (tr : ∀ a ∈ l, ∀ b ∈ l, ∀ c ∈ l, r a b → r b c → r a c) :
    (l.insertionSort r).Pairwise r := by
  induction l with
  | nil => simp [List.insertionSort]
  | cons x xs ih =>
    rw [List.insertionSort]
    refine pairwise_orderedInsert_of r x (xs.insertionSort r)
      (ih (fun a ha b hb => tot a (List.mem_cons_of_mem x ha) b (List.mem_cons_of_mem x hb))
        (fun a ha b hb c hc => tr a (List.mem_cons_of_mem x ha) b (List.mem_cons_of_mem x hb)
          c (List.mem_cons_of_mem x hc)))
      ?_ ?_
    · intro b hb
      exact tot x (List.mem_cons_self x xs) b
        (List.mem_cons_of_mem x ((List.mem_insertionSort r).mp hb))
    · intro b hb c hc
      exact tr x (List.mem_cons_self x xs) b
        (List.mem_cons_of_mem x ((List.mem_insertionSort r).mp hb)) c
        (List.mem_cons_of_mem x ((List.mem_insertionSort r).mp hc))

theorem filter_orderedInsert_of_pos {α : Type} (r : α → α → Prop) [DecidableRel r]
    (p : α → Bool) (x : α) (l : List α) (hx : p x = true)
    (h : ∀ b ∈ l, p b = true → r x b) :
    (l.orderedInsert r x).filter p = x :: l.filter p := by
  induction l with
  | nil => simp [List.orderedInsert, hx]
  | cons y ys ih =>
    rw [List.orderedInsert]
    by_cases hxy : r x y
    · rw [if_pos hxy, List.filter_cons, if_pos hx]
    · rw [if_neg hxy, List.filter_cons]
      have hy : p y = false := by
        cases hpy : p y with
        | false => rfl
        | true => exact absurd (h y (List.mem_cons_self y ys) hpy) hxy
      rw [hy]
      simp only [Bool.false_eq_true, if_false]
      rw [ih (fun b hb => h b (List.mem_cons_of_mem y hb)), List.filter_cons, hy]
      simp

theorem filter_orderedInsert_of_neg {α : Type} (r : α → α → Prop) [DecidableRel r]
    (p : α → Bool) (x : α) (l : List α) (hx : p x = false) :
    (l.orderedInsert r x).filter p = l.filter p := by
  induction l with
  | nil => simp [List.orderedInsert, hx]
  | cons y ys ih =>
    rw [List.orderedInsert]
    by_cases hxy : r x y
    · rw [if_pos hxy, List.filter_cons, hx]
      simp
    · rw [if_neg hxy, List.filter_cons, List.filter_cons, ih]

theorem filter_insertionSort_of {α : Type} (r : α → α → Prop) [DecidableRel r]
    (p : α → Bool) (l : List α)
    (h : ∀ a ∈ l, ∀ b ∈ l, p a = true → p b = true → r a b) :
    (l.insertionSort r).filter p = l.filter p := by
  induction l with
  | nil => simp [List.insertionSort]
  | cons x xs ih =>
    rw [List.insertionSort]
    have ihx := ih fun a ha b hb => h a (List.mem_cons_of_mem x ha) b (List.mem_cons_of_mem x hb)
    cases hx : p x with
    | true =>
      rw [filter_orderedInsert_of_pos r p x (xs.insertionSort r) hx
        (fun b hb hpb => h x (List.mem_cons_self x xs) b
          (List.mem_cons_of_mem x ((List.mem_insertionSort r).mp hb)) hx hpb)]
      rw [ihx, List.filter_cons, hx]
      simp
    | false =>
      rw [filter_orderedInsert_of_neg r p x (xs.insertionSort r) hx, ihx,
        List.filter_cons, hx]
      simp

/-- Membership in the derived view: a task is listed exactly when it is in the
collection, passes the completion-state filter, and matches the search. -/
theorem mem_sortedAndFilteredTodos (todos : List Todo) (filter searchQuery sortBy : String)
    (t : Todo) :
    t ∈ sortedAndFilteredTodos todos filter searchQuery sortBy ↔
      t ∈ todos ∧ passesFilter filter t = true ∧ matchesSearch searchQuery t = true := by
  rw [sortedAndFilteredTodos, List.mem_insertionSort, filteredTodos, List.mem_filter,
    List.mem_filter]
  tauto

/-- A concrete task used to instantiate the theorems below on closed inputs. -/
def sampleTodo : Todo :=
  { id := "1", text := "Buy milk", completed := false, priority := .medium,
    category := "personal", dueDate := none, notes := some "", tags := some ["Urgent"] }

/-- A concrete task with the earlier due date (timestamp 5). -/
def sampleEarly : Todo :=
  { id := "2", text := "early", completed := false, priority := .medium,
    category := "personal", dueDate := some 5, notes := some "", tags := some [] }

/-- A concrete task with the later due date (timestamp 9). -/
def sampleLate : Todo :=
  { id := "3", text := "late", completed := false, priority := .high,
    category := "personal", dueDate := some 9, notes := some "", tags := some [] }

/-- C2: a create call whose text is empty after trimming is rejected with the
human-readable message "Todo text cannot be empty", and the task collection is
returned completely unchanged. -/
theorem addTodo_empty_text_rejected (now : Nat) (newTodo : String) (priority : Priority)
    (category : String) (dueDate : Option Int) (notes tags : String) (todos : List Todo)
    (h : strTrim newTodo = "") :
    addTodo now newTodo priority category dueDate notes tags todos =
      (todos, some "Todo text cannot be empty") := by
  rw [addTodo, if_pos h]

/-- Witness for C2: both `create("")` and `create("   ")` on the empty
collection are rejected and leave it empty. -/
theorem addTodo_empty_text_rejected_witness :
    addTodo 1000 "" .medium "personal" none "" "" [] =
        ([], some "Todo text cannot be empty")
    ∧ addTodo 1000 "   " .medium "personal" none "" "" [sampleTodo] =
        ([sampleTodo], some "Todo text cannot be empty") :=
  ⟨addTodo_empty_text_rejected 1000 "" .medium "personal" none "" "" [] (by decide),
   addTodo_empty_text_rejected 1000 "   " .medium "personal" none "" "" [sampleTodo]
     (by decide)⟩

/-- C7: `toggle(id)` preserves the length of the collection; position by
position it flips exactly the `completed` field of the tasks whose id matches
and returns every other task unchanged; when no task carries the id the
collection is unchanged (and no error is possible); and toggling twice is the
identity. -/
theorem toggleTodo_spec (id : String) (todos : List Todo) :
    (toggleTodo id todos).length = todos.length
    ∧ (∀ i : Nat, (toggleTodo id todos)[i]? =
        (todos[i]?).map fun t =>
          if t.id = id then { t with completed := !t.completed } else t)
    ∧ ((∀ t ∈ todos, t.id ≠ id) → toggleTodo id todos = todos)
    ∧ toggleTodo id (toggleTodo id todos) = todos := by
  have hff : ∀ u : Todo,
      (if (if u.id = id then { u with completed := !u.completed } else u).id = id then
        { (if u.id = id then { u with completed := !u.completed } else u) with
            completed := !(if u.id = id then { u with completed := !u.completed } else u).completed }
      else (if u.id = id then { u with completed := !u.completed } else u)) = u := by
    intro u
    obtain ⟨uid, utext, ucomp, uprio, ucat, udue, unotes, utags⟩ := u
    by_cases h : uid = id
    · simp [h, Bool.not_not]
    · simp [h]
  refine ⟨List.length_map todos _, fun i => List.getElem?_map _ todos i, ?_, ?_⟩
  · intro h
    rw [toggleTodo]
    conv_rhs => rw [← List.map_id todos]
    exact List.map_congr_left fun t ht => by rw [if_neg (h t ht)]; rfl
  · rw [toggleTodo, toggleTodo, List.map_map]
    conv_rhs => rw [← List.map_id todos]
    exact List.map_congr_left fun t _ => hff t

/-- Witness for C7: toggling an absent id on a concrete collection is a
no-op. -/
theorem toggleTodo_spec_witness : toggleTodo "zzz" [sampleTodo] = [sampleTodo] :=
  (toggleTodo_spec "zzz" [sampleTodo]).2.2.1
    (by intro t ht; rw [List.mem_singleton.mp ht]; decide)

/-- C8: `delete(id)` keeps exactly the tasks whose id differs, as a sublist of
the original collection (so relative order is preserved); when no task carries
the id the collection is unchanged (and no error is possible); and no
subsequent view, whatever its filter, search query and sort key, contains a
task with the deleted id. -/
theorem deleteTodo_spec (id : String) (todos : List Todo) :
    (∀ t, t ∈ deleteTodo id todos ↔ t ∈ todos ∧ t.id ≠ id)
    ∧ List.Sublist (deleteTodo id todos) todos
    ∧ ((∀ t ∈ todos, t.id ≠ id) → deleteTodo id todos = todos)
    ∧ (∀ filter searchQuery sortBy : String,
        ∀ t ∈ sortedAndFilteredTodos (deleteTodo id todos) filter searchQuery sortBy,
          t.id ≠ id) := by
  refine ⟨?_, List.filter_sublist todos, ?_, ?_⟩
  · intro t
    rw [deleteTodo, List.mem_filter, bne_iff_ne]
  · intro h
    rw [deleteTodo]
    exact List.filter_eq_self.mpr fun t ht => bne_iff_ne.mpr (h t ht)
  · intro filter searchQuery sortBy t ht
    have hmem :=
      ((mem_sortedAndFilteredTodos (deleteTodo id todos) filter searchQuery sortBy t).mp ht).1
    rw [deleteTodo, List.mem_filter] at hmem
    exact bne_iff_ne.mp hmem.2

/-- Witness for C8: deleting an absent id on a concrete collection is a
no-op. -/
theorem deleteTodo_spec_witness : deleteTodo "zzz" [sampleTodo] = [sampleTodo] :=
  (deleteTodo_spec "zzz" [sampleTodo]).2.2.1
    (by intro t ht; rw [List.mem_singleton.mp ht]; decide)

/-- C9: a successful create stores as `tags` exactly the raw tags input split
on commas, trimmed, with empty pieces discarded; that parse never yields an
empty string; and on the input `"a, b ,, c"` it yields `["a", "b", "c"]`. -/
theorem addTodo_tags_spec (now : Nat) (newTodo : String) (priority : Priority)
    (category : String) (dueDate : Option Int) (notes tagsRaw : String) (todos : List Todo)
    (h : strTrim newTodo ≠ "") :
    (∃ t, (addTodo now newTodo priority category dueDate notes tagsRaw todos).1 =
          todos ++ [t]
        ∧ t.tags = some (parseTags tagsRaw))
    ∧ (∀ tag ∈ parseTags tagsRaw, tag ≠ "")
    ∧ parseTags "a, b ,, c" = ["a", "b", "c"] := by
  refine ⟨⟨{ id := toString now, text := newTodo, completed := false, priority := priority,
             category := category, dueDate := dueDate, notes := some notes,
             tags := some (parseTags tagsRaw) }, ?_, rfl⟩, ?_, by decide⟩
  · rw [addTodo, if_neg h]
  · intro tag htag
    rw [parseTags, List.mem_filter] at htag
    exact bne_iff_ne.mp htag.2

/-- Witness for C9: a concrete create with raw tags `"a, b ,, c"` appends one
task whose `tags` are the parse of that input, which evaluates to
`["a", "b", "c"]`. -/
theorem addTodo_tags_spec_witness :
    (∃ t, (addTodo 1000 "Buy milk" .medium "personal" none "" "a, b ,, c" []).1 = [] ++ [t]
        ∧ t.tags = some (parseTags "a, b ,, c"))
    ∧ parseTags "a, b ,, c" = ["a", "b", "c"] :=
  ⟨(addTodo_tags_spec 1000 "Buy milk" .medium "personal" none "" "a, b ,, c" []
      (by decide)).1,
   (addTodo_tags_spec 1000 "Buy milk" .medium "personal" none "" "a, b ,, c" []
      (by decide)).2.2⟩

/-- C10: a successful create stores the caller's raw text verbatim — only the
emptiness check looks at the trimmed value — so the stored text still trims to
a non-empty string but may keep leading or trailing whitespace. -/
theorem addTodo_raw_text_spec (now : Nat) (newTodo : String) (priority : Priority)
    (category : String) (dueDate : Option Int) (notes tags : String) (todos : List Todo)
    (h : strTrim newTodo ≠ "") :
    ∃ t, (addTodo now newTodo priority category dueDate notes tags todos).1 = todos ++ [t]
      ∧ t.text = newTodo ∧ strTrim t.text ≠ "" := by
  refine ⟨{ id := toString now, text := newTodo, completed := false, priority := priority,
            category := category, dueDate := dueDate, notes := some notes,
            tags := some (parseTags tags) }, ?_, rfl, h⟩
  rw [addTodo, if_neg h]

/-- Witness for C10: `create("  Buy milk ")` stores the text `"  Buy milk "`
with its surrounding whitespace intact. -/
theorem addTodo_raw_text_spec_witness :
    ∃ t, (addTodo 1000 "  Buy milk " .medium "personal" none "" "" []).1 = [] ++ [t]
      ∧ t.text = "  Buy milk " ∧ strTrim t.text ≠ "" :=
  addTodo_raw_text_spec 1000 "  Buy milk " .medium "personal" none "" "" [] (by decide)

/-- C3: with sort key `date` the comparator returns `0` (reports the pair as
equal, rather than placing undated tasks last) whenever either side lacks a
`dueDate`; when both sides carry one it orders ascending by it; and on any
collection whose tasks all carry a `dueDate` the view is in ascending
`dueDate` order. -/
theorem date_sort_spec (a b : Todo) (todos : List Todo) (filter searchQuery : String) :
    ((a.dueDate = none ∨ b.dueDate = none) → sortCmp "date" a b = 0)
    ∧ (∀ ta tb : Int, a.dueDate = some ta → b.dueDate = some tb →
        (sortCmp "date" a b ≤ 0 ↔ ta ≤ tb))
    ∧ ((∀ t ∈ todos, t.dueDate ≠ none) →
        (sortedAndFilteredTodos todos filter searchQuery "date").Pairwise
          fun x y => ∀ tx ty : Int, x.dueDate = some tx → y.dueDate = some ty → tx ≤ ty) := by
  refine ⟨sortCmp_date_none a b, ?_, ?_⟩
  · intro ta tb ha hb
    rw [sortCmp_date_some ta tb a b ha hb]
    exact sub_nonpos
  · intro hall
    have hsome : ∀ t ∈ filteredTodos todos filter searchQuery, ∃ d : Int, t.dueDate = some d := by
      intro t ht
      have htodos : t ∈ todos := (List.mem_filter.mp (List.mem_filter.mp ht).1).1
      cases hd : t.dueDate with
      | none => exact absurd hd (hall t htodos)
      | some d => exact ⟨d, rfl⟩
    rw [sortedAndFilteredTodos]
    have hp := pairwise_insertionSort_of (sortLe "date")
      (filteredTodos todos filter searchQuery)
      (by
        intro x hx y hy
        obtain ⟨dx, hdx⟩ := hsome x hx
        obtain ⟨dy, hdy⟩ := hsome y hy
        rw [sortLe, sortLe, sortCmp_date_some dx dy x y hdx hdy,
          sortCmp_date_some dy dx y x hdy hdx, sub_nonpos, sub_nonpos]
        exact le_total dx dy)
      (by
        intro x hx y hy z hz hxy hyz
        obtain ⟨dx, hdx⟩ := hsome x hx
        obtain ⟨dy, hdy⟩ := hsome y hy
        obtain ⟨dz, hdz⟩ := hsome z hz
        rw [sortLe, sortCmp_date_some dx dy x y hdx hdy, sub_nonpos] at hxy
        rw [sortLe, sortCmp_date_some dy dz y z hdy hdz, sub_nonpos] at hyz
        rw [sortLe, sortCmp_date_some dx dz x z hdx hdz, sub_nonpos]
        exact le_trans hxy hyz)
    refine hp.imp ?_
    intro x y hxy tx ty hx hy
    rw [sortLe, sortCmp_date_some tx ty x y hx hy, sub_nonpos] at hxy
    exact hxy

/-- Witness for C3: the comparator reports an undated pair as equal; it orders
the dated pair (5, 9) ascending; and a concrete all-dated collection, listed
out of order, is viewed in ascending due-date order. -/
theorem date_sort_spec_witness :
    sortCmp "date" sampleTodo sampleEarly = 0
    ∧ (sortCmp "date" sampleEarly sampleLate ≤ 0 ↔ (5 : Int) ≤ 9)
    ∧ (sortedAndFilteredTodos [sampleLate, sampleEarly] "all" "" "date").Pairwise
        (fun x y => ∀ tx ty : Int, x.dueDate = some tx → y.dueDate = some ty → tx ≤ ty) :=
  ⟨(date_sort_spec sampleTodo sampleEarly [] "" "").1 (Or.inl rfl),
   (date_sort_spec sampleEarly sampleLate [] "" "").2.1 5 9 rfl rfl,
   (date_sort_spec sampleEarly sampleLate [sampleLate, sampleEarly] "all" "").2.2
     (by
       intro t ht
       rcases List.mem_cons.mp ht with h | h
       · rw [h]; decide
       · rw [List.mem_singleton.mp h]; decide)⟩

/-- C4: with sort key `priority` the view is ordered by nondecreasing priority
rank (`high = 0`, `medium = 1`, `low = 2`), so every `high` task comes before
every `medium` task, which comes before every `low` task; and for each
priority class the subsequence of the view in that class equals the
subsequence of the filtered collection in that class — the sort is stable. -/
theorem priority_sort_spec (todos : List Todo) (filter searchQuery : String) :
    (sortedAndFilteredTodos todos filter searchQuery "priority").Pairwise
      (fun a b => priorityOrder a.priority ≤ priorityOrder b.priority)
    ∧ ∀ p : Priority,
        (sortedAndFilteredTodos todos filter searchQuery "priority").filter
            (fun t => t.priority == p) =
          (filteredTodos todos filter searchQuery).filter fun t => t.priority == p := by
  constructor
  · have hp := pairwise_insertionSort_of (sortLe "priority")
      (filteredTodos todos filter searchQuery)
      (by
        intro a _ b _
        rw [sortLe, sortLe, sortCmp_priority, sortCmp_priority, sub_nonpos, sub_nonpos]
        exact le_total _ _)
      (by
        intro a _ b _ c _ hab hbc
        rw [sortLe, sortCmp_priority, sub_nonpos] at hab hbc ⊢
        exact le_trans hab hbc)
    rw [sortedAndFilteredTodos]
    refine hp.imp ?_
    intro a b hab
    rw [sortLe, sortCmp_priority, sub_nonpos] at hab
    exact hab
  · intro p
    rw [sortedAndFilteredTodos]
    refine filter_insertionSort_of _ _ _ ?_
    intro a _ b _ hpa hpb
    rw [sortLe, sortCmp_priority, beq_iff_eq.mp hpa, beq_iff_eq.mp hpb, sub_self]

/-- C5: a task appears in the view exactly when it is in the collection,
passes the completion filter and matches the search; `all` (like any other
unrecognized filter string) keeps every task, `active` keeps the
not-completed ones, `completed` keeps the completed ones; in particular the
`active` view never lists a completed task and the `completed` view never
lists a not-completed one. -/
theorem view_membership_spec (todos : List Todo) (filter searchQuery sortBy : String) :
    (∀ t, t ∈ sortedAndFilteredTodos todos filter searchQuery sortBy ↔
        t ∈ todos ∧ passesFilter filter t = true ∧ matchesSearch searchQuery t = true)
    ∧ (∀ t, passesFilter "all" t = true)
    ∧ (∀ t, passesFilter "active" t = !t.completed)
    ∧ (∀ t, passesFilter "completed" t = t.completed)
    ∧ (∀ t ∈ sortedAndFilteredTodos todos "active" searchQuery sortBy, t.completed = false)
    ∧ (∀ t ∈ sortedAndFilteredTodos todos "completed" searchQuery sortBy,
        t.completed = true) := by
  refine ⟨mem_sortedAndFilteredTodos todos filter searchQuery sortBy, ?_, ?_, ?_, ?_, ?_⟩
  · intro t
    rw [passesFilter, if_neg (by decide), if_neg (by decide)]
  · intro t
    rw [passesFilter, if_pos rfl]
  · intro t
    rw [passesFilter, if_neg (by decide), if_pos rfl]
  · intro t ht
    have hpass :=
      ((mem_sortedAndFilteredTodos todos "active" searchQuery sortBy t).mp ht).2.1
    rw [passesFilter, if_pos rfl] at hpass
    simpa using hpass
  · intro t ht
    have hpass :=
      ((mem_sortedAndFilteredTodos todos "completed" searchQuery sortBy t).mp ht).2.1
    rw [passesFilter, if_neg (by decide), if_pos rfl] at hpass
    exact hpass

/-- Witness for C5: a concrete not-completed task tagged `"Urgent"` is listed
by the `active` view under the case-insensitive search query `"urg"`. -/
theorem view_membership_spec_witness :
    sampleTodo ∈ sortedAndFilteredTodos [sampleTodo] "active" "urg" "date" :=
  ((view_membership_spec [sampleTodo] "active" "urg" "date").1 sampleTodo).mpr
    ⟨List.mem_singleton.mpr rfl, by decide, by decide⟩

/-- C6: evaluating the derived view is a pure read: the collection after the
evaluation is exactly the collection before it, and every task the view lists
is one of the collection's own tasks, with unchanged field values. -/
theorem view_is_pure (todos : List Todo) (filter searchQuery sortBy : String) :
    (viewRun todos filter searchQuery sortBy).2 = todos
    ∧ ∀ t ∈ (viewRun todos filter searchQuery sortBy).1, t ∈ todos := by
  refine ⟨rfl, ?_⟩
  intro t ht
  exact ((mem_sortedAndFilteredTodos todos filter searchQuery sortBy t).mp ht).1

/-- Witness for C6: on a concrete collection the view evaluation leaves the
collection as it was and only lists its own task. -/
theorem view_is_pure_witness :
    (viewRun [sampleTodo] "all" "" "priority").2 = [sampleTodo]
    ∧ ∀ t ∈ (viewRun [sampleTodo] "all" "" "priority").1, t ∈ [sampleTodo] :=
  view_is_pure [sampleTodo] "all" "" "priority"

/-- C1 (divergence of the code): `id` is `Date.now().toString()`, so two
create calls served in the same millisecond — here both with `Date.now() =
1000` — append two tasks carrying the same id `"1000"`: the id is not fresh
with respect to the collection and the collection ends up with two tasks
sharing an id, contradicting the claimed uniqueness. -/
theorem addTodo_same_millisecond_duplicate_id :
    ∃ t1 t2,
      addTodo 1000 "Buy milk" .medium "personal" none "" "" [] = ([t1], none)
      ∧ addTodo 1000 "Buy milk" .medium "personal" none "" "" [t1] = ([t1, t2], none)
      ∧ t1.id = t2.id := by
  refine ⟨{ id := toString 1000, text := "Buy milk", completed := false, priority := .medium,
            category := "personal", dueDate := none, notes := some "", tags := some [] },
          { id := toString 1000, text := "Buy milk", completed := false, priority := .medium,
            category := "personal", dueDate := none, notes := some "", tags := some [] },
          ?_, ?_, rfl⟩
  · rw [addTodo, if_neg (by decide)]; rfl
  · rw [addTodo, if_neg (by decide)]; rfl
